import Mathlib

/-!
Shallow embedding of the Winds RSS worker (`src/api/src/workers/rss.js`).

The worker's document store (MongoDB via Mongoose) is modelled as an explicit
list of article documents; `findOneAndUpdate` with `upsert: true` becomes a
pure function on that list, and the store-level uniqueness constraint on
(`rss`, `url`) is modelled as a duplicate-key error on insert.  Asynchronous
`Promise.all` fan-out is sequentialised left-to-right.  External collaborators
(feed parser, URL normalizer, activity stream, enrichment queue) are inputs or
recorded effects.
-/

namespace Winds

/-- Mongo duplicate-key error code, `const duplicateKeyError = 11000` in the source. -/
def duplicateKeyError : Nat := 11000

/-- An Article document as stored (fields written by `upsertArticle`'s update object,
plus the store-assigned `_id`, here `id`). -/
structure StoredArticle where
  id : Nat
  rss : String
  url : String
  contentHash : String
  title : String
  description : String
  content : String
  commentUrl : String
  enclosures : List String
  images : List String
  publicationDate : String
deriving DecidableEq, Repr

/-- A candidate article (`post`) after URL normalization and content hashing. -/
structure Post where
  url : String
  contentHash : String
  title : String
  description : String
  content : String
  commentUrl : String
  enclosures : Option (List String)
  images : Option (List String)
  publicationDate : String
deriving DecidableEq, Repr

/-- The Article collection: documents plus the next fresh `_id`. -/
structure ArticleStore where
  docs : List StoredArticle
  nextId : Nat
deriving DecidableEq, Repr

/-- The `$or: postContentDiffers` predicate of `upsertArticle`: document `d` matches
when at least one of commentUrl, content, description, title differs from the post
(`\x7b [k]: \x7b $ne: search[k] \x7d \x7d` over the keys of `search`). -/
def postContentDiffers (p : Post) (d : StoredArticle) : Bool :=
  d.commentUrl != p.commentUrl || d.content != p.content ||
    d.description != p.description || d.title != p.title

/-- Effect of applying `upsertArticle`'s update object (a `$set` of every field of
`update`) to an existing document `d`; the stored `_id` is kept. -/
def mkUpdatedDoc (rssID : String) (p : Post) (d : StoredArticle) : StoredArticle :=
  { d with
    commentUrl := p.commentUrl
    content := p.content
    description := p.description
    title := p.title
    url := p.url
    rss := rssID
    contentHash := p.contentHash
    enclosures := p.enclosures.getD []
    images := p.images.getD []
    publicationDate := p.publicationDate }

/-- The document inserted when the upsert finds no match: the update object with a
fresh `_id`. -/
def mkInsertedDoc (store : ArticleStore) (rssID : String) (p : Post) : StoredArticle :=
  { id := store.nextId
    rss := rssID
    url := p.url
    contentHash := p.contentHash
    title := p.title
    description := p.description
    content := p.content
    commentUrl := p.commentUrl
    enclosures := p.enclosures.getD []
    images := p.images.getD []
    publicationDate := p.publicationDate }

/-- The `findOneAndUpdate` query of `upsertArticle`:
`$and: [\x7b rss, url \x7d, \x7b $or: postContentDiffers \x7d]`. -/
def upsertQuery (rssID : String) (p : Post) (d : StoredArticle) : Bool :=
  d.rss == rssID && d.url == p.url && postContentDiffers p d

/-- Update the first document matching the `findOneAndUpdate` query. -/
def updateFirstMatch (rssID : String) (p : Post) : List StoredArticle → List StoredArticle
  | [] => []
  | d :: rest =>
    if upsertQuery rssID p d then mkUpdatedDoc rssID p d :: rest
    else d :: updateFirstMatch rssID p rest

/-- Raw result of the store call (`rawResult: true`): the returned document
(`new: true`, so post-update) and `lastErrorObject.updatedExisting`. -/
structure RawResult where
  value : StoredArticle
  updatedExisting : Bool
deriving DecidableEq, Repr

/-- Modelled from the spec: the store collaborator's atomic
find-or-create-or-update (`Article.findOneAndUpdate` with `upsert: true`,
`new: true`, `rawResult: true`) together with the uniqueness constraint on
(`rss`, `url`) declared by the Article model (repository code outside `src/`;
spec section 3 and section 6).  If a document matches the query it is updated in
place; otherwise an insert is attempted, which the uniqueness constraint rejects
with `duplicateKeyError` when a document with the same (`rss`, `url`) already
exists. -/
def findOneAndUpdateArticle (store : ArticleStore) (rssID : String) (p : Post) :
    Except Nat (ArticleStore × RawResult) :=
  match store.docs.find? (upsertQuery rssID p) with
  | some d =>
      .ok (⟨updateFirstMatch rssID p store.docs, store.nextId⟩,
           ⟨mkUpdatedDoc rssID p d, true⟩)
  | none =>
      if store.docs.any (fun d => d.rss == rssID && d.url == p.url) then
        .error duplicateKeyError
      else
        .ok (⟨store.docs ++ [mkInsertedDoc store rssID p], store.nextId + 1⟩,
             ⟨mkInsertedDoc store rssID p, false⟩)

/-- The result handling and `try`/`catch` of `upsertArticle`: on success return the
document only when the operation inserted (`!updatedExisting`); a duplicate-key
error is swallowed (counter incremented, `null` returned, store unchanged by the
rejected write); any other error is re-raised. -/
def applyUpsertOutcome (store : ArticleStore)
    (outcome : Except Nat (ArticleStore × RawResult)) :
    Except Nat (ArticleStore × Option StoredArticle) :=
  match outcome with
  | .ok (s, r) => .ok (s, if r.updatedExisting then none else some r.value)
  | .error code =>
      if code == duplicateKeyError then .ok (store, none) else .error code

/-- `upsertArticle(rssID, post)` from the source. -/
def upsertArticle (store : ArticleStore) (rssID : String) (p : Post) :
    Except Nat (ArticleStore × Option StoredArticle) :=
  applyUpsertOutcome store (findOneAndUpdateArticle store rssID p)

/-- The `$or: searchData` predicate of the prefilter query: document matches some
candidate's (`url`, `contentHash`) pair exactly. -/
def searchMatches (searchData : List (String × String)) (d : StoredArticle) : Bool :=
  searchData.any (fun pr => d.url == pr.1 && d.contentHash == pr.2)

/-- The `existingArticles` query of `upsertManyArticles`:
`Article.find(\x7b $and: [\x7b rss: rssID \x7d, \x7b $or: searchData \x7d] \x7d)`. -/
def existingArticlesFor (store : ArticleStore) (rssID : String) (articles : List Post) :
    List StoredArticle :=
  let searchData := articles.map (fun a => (a.url, a.contentHash))
  store.docs.filter (fun d => d.rss == rssID && searchMatches searchData d)

/-- The `articlesToUpsert` filter of `upsertManyArticles`: keep a candidate iff its
url is not among the matched articles' urls and its contentHash is not among the
matched articles' contentHashes. -/
def articlesToUpsert (store : ArticleStore) (rssID : String) (articles : List Post) :
    List Post :=
  let existing := existingArticlesFor store rssID articles
  let existingArticleUrls := existing.map (fun a => a.url)
  let existingArticleHashes := existing.map (fun a => a.contentHash)
  articles.filter (fun a =>
    !existingArticleUrls.contains a.url && !existingArticleHashes.contains a.contentHash)

/-- Sequentialisation of `Promise.all(articlesToUpsert.map(...))`: run the per-item
upsert left-to-right, threading the store; the first error aborts the rest. -/
def upsertAllWith
    (f : ArticleStore → Post → Except Nat (ArticleStore × Option StoredArticle)) :
    ArticleStore → List Post → Except Nat (ArticleStore × List (Option StoredArticle))
  | store, [] => .ok (store, [])
  | store, p :: rest =>
    match f store p with
    | .error e => .error e
    | .ok (s, r) =>
      match upsertAllWith f s rest with
      | .error e => .error e
      | .ok (s2, rs) => .ok (s2, r :: rs)

/-- `upsertManyArticles(rssID, articles)` from the source: prefilter, then upsert
every survivor. -/
def upsertManyArticles (store : ArticleStore) (rssID : String) (articles : List Post) :
    Except Nat (ArticleStore × List (Option StoredArticle)) :=
  upsertAllWith (fun s p => upsertArticle s rssID p) store
    (articlesToUpsert store rssID articles)

/-- An RSS feed document; only the fields this worker reads or writes. -/
structure Feed where
  id : String
  lastScraped : String
  isParsing : Bool
  scrapeFailures : Nat
  postCount : Nat
deriving DecidableEq, Repr

/-- A parsed article straight out of `ParseFeed`, before URL normalization and
content hashing. -/
structure RawPost where
  url : String
  title : String
  description : String
  content : String
  commentUrl : String
  enclosures : Option (List String)
  images : Option (List String)
  publicationDate : String
deriving DecidableEq, Repr

/-- Modelled from the spec: `Article.computeContentHash` (Article model,
repository code outside `src/`) is a deterministic hash over exactly the
commentUrl, content, description and title fields (spec section 3 and glossary);
modelled as an injective encoding of those four fields. -/
def computeContentHash (a : RawPost) : String :=
  "h(" ++ a.commentUrl ++ "|" ++ a.content ++ "|" ++ a.description ++ "|" ++ a.title ++ ")"

/-- The per-article normalization step of `handleRSS` (lines 93-102): canonicalize
the url with the external `normalize-url` collaborator (`none` models a thrown
error, which drops the candidate with a warning) and compute the content hash. -/
def normalizeArticle (normalizeUrl : String → Option String) (a : RawPost) : Option Post :=
  match normalizeUrl a.url with
  | none => none
  | some u =>
      some
        { url := u
          contentHash := computeContentHash a
          title := a.title
          description := a.description
          content := a.content
          commentUrl := a.commentUrl
          enclosures := a.enclosures
          images := a.images
          publicationDate := a.publicationDate }

/-- An activity record sent to the stream collaborator. -/
structure Activity where
  actor : String
  foreign_id : String
  object : Nat
  time : String
  verb : String
deriving DecidableEq, Repr

/-- The activity built for one article (lines 145-153). -/
def mkActivity (a : StoredArticle) : Activity :=
  { actor := a.rss
    foreign_id := "articles:" ++ toString a.id
    object := a.id
    time := a.publicationDate
    verb := "rss_article" }

/-- Chunking loop of lines 142-155 (`chunkSize = 100`), fuelled for structural
recursion; the fuel is the list length, which bounds the number of chunks. -/
def chunksOf100Aux : Nat → List α → List (List α)
  | _, [] => []
  | 0, _ :: _ => []
  | fuel + 1, l => l.take 100 :: chunksOf100Aux fuel (l.drop 100)

/-- Slices `[i, i+100)` of the list, in order. -/
def chunksOf100 (l : List α) : List (List α) :=
  chunksOf100Aux l.length l

/-- Observable calls on external collaborators and the store, in order. -/
inductive Effect where
  | markDone (rssID : String)
  | findFeed (rssID : String)
  | parseFeed (url : String)
  | resetFailures (rssID : String)
  | incrFailures (rssID : String)
  | articleQuery (rssID : String)
  | articleWrite (rssID : String) (url : String)
  | updatePostCount (rssID : String) (n : Nat)
  | ogAdd (url : String)
  | addActivities (acts : List Activity)
  | notifyCollections (rssID : String)
deriving DecidableEq, Repr

/-- Line 115: `allArticles.filter(updatedArticle => updatedArticle)` — drop the
`null` results (updates and ignored duplicates), keep the inserted articles. -/
def filterUpdated (allArticles : List (Option StoredArticle)) : List StoredArticle :=
  allArticles.filterMap id

/-- Lines 121-136: one enrichment-queue job per updated article. -/
def ogEvents (updated : List StoredArticle) : List Effect :=
  updated.map (fun a => Effect.ogAdd a.url)

/-- Lines 141-157: when there are new articles, publish them to the feed's stream
in sequential chunks of at most 100 activities, then notify collections. -/
def streamEvents (rssID : String) (updated : List StoredArticle) : List Effect :=
  if updated.isEmpty then []
  else
    (chunksOf100 (updated.map mkActivity)).map Effect.addActivities ++
      [Effect.notifyCollections rssID]

/-- Result of the external `ParseFeed` collaborator: success with some (possibly
null) content, or a thrown error. -/
inductive ParseOutcome where
  | success (content : Option (List RawPost))
  | failure
deriving Repr

/-- Everything a single `handleRSS(job)` run depends on: the job data, the clock,
the two collections, and the external parse and normalize collaborators. -/
structure JobEnv where
  rssID : String
  url : String
  now : String
  feeds : List Feed
  store : ArticleStore
  parseResult : ParseOutcome
  normalizeUrl : String → Option String

/-- An error escaping `handleRSS` (re-raised to `rssProcessor`). -/
inductive JobError where
  | parseError
  | storeError (code : Nat)
deriving DecidableEq, Repr

/-- Final state and trace of one `handleRSS` run. -/
structure JobOutcome where
  feeds : List Feed
  store : ArticleStore
  events : List Effect
  err : Option JobError
deriving Repr

/-- `RSS.update(\x7b _id \x7d, ...)`: update the (first, `_id` being unique)
matching feed document; a no-op on a missing feed. -/
def updateFeedFirst (f : Feed → Feed) (rssID : String) : List Feed → List Feed
  | [] => []
  | fd :: rest =>
    if fd.id == rssID then f fd :: rest else fd :: updateFeedFirst f rssID rest

/-- `markDone(rssID)` from the source: set `lastScraped` to now and `isParsing`
to false. -/
def markDone (now : String) (rssID : String) (feeds : List Feed) : List Feed :=
  updateFeedFirst (fun fd => { fd with lastScraped := now, isParsing := false }) rssID feeds

/-- Modelled from the spec: `RSS.resetScrapeFailures` (RSS model, repository code
outside `src/`) resets the feed's consecutive failure counter to 0 (spec
section 4.2). -/
def resetScrapeFailures (rssID : String) (feeds : List Feed) : List Feed :=
  updateFeedFirst (fun fd => { fd with scrapeFailures := 0 }) rssID feeds

/-- Modelled from the spec: `RSS.incrScrapeFailures` (RSS model, repository code
outside `src/`) increments the feed's consecutive failure counter by 1 (spec
section 4.2). -/
def incrScrapeFailures (rssID : String) (feeds : List Feed) : List Feed :=
  updateFeedFirst (fun fd => { fd with scrapeFailures := fd.scrapeFailures + 1 }) rssID feeds

/-- `Article.count(\x7b rss: rssID \x7d)`. -/
def countArticles (store : ArticleStore) (rssID : String) : Nat :=
  (store.docs.filter (fun d => d.rss == rssID)).length

/-- `RSS.findOne(\x7b _id: rssID \x7d)`. -/
def findFeed (feeds : List Feed) (rssID : String) : Option Feed :=
  feeds.find? (fun fd => fd.id == rssID)

/-- `handleRSS(job)` from the source: mark done, look up the feed, parse (with the
failure counter around it), bail out on null content or an empty article list,
normalize, upsert the batch, recompute `postCount`, then fan out the newly
inserted articles to the enrichment queue and the activity stream. -/
def handleRSS (env : JobEnv) : JobOutcome :=
  let rssID := env.rssID
  let feeds1 := markDone env.now rssID env.feeds
  let ev0 := [Effect.markDone rssID, Effect.findFeed rssID]
  match findFeed feeds1 rssID with
  | none => ⟨feeds1, env.store, ev0, none⟩
  | some _ =>
    match env.parseResult with
    | .failure =>
        ⟨incrScrapeFailures rssID feeds1, env.store,
         ev0 ++ [Effect.parseFeed env.url, Effect.incrFailures rssID],
         some JobError.parseError⟩
    | .success content =>
        let feeds2 := resetScrapeFailures rssID feeds1
        let ev1 := ev0 ++ [Effect.parseFeed env.url, Effect.resetFailures rssID]
        match content with
        | none => ⟨feeds2, env.store, ev1, none⟩
        | some rawArticles =>
          if rawArticles.length == 0 then ⟨feeds2, env.store, ev1, none⟩
          else
            let articles := rawArticles.filterMap (normalizeArticle env.normalizeUrl)
            match upsertManyArticles env.store rssID articles with
            | .error code =>
                ⟨feeds2, env.store, ev1 ++ [Effect.articleQuery rssID],
                 some (JobError.storeError code)⟩
            | .ok (store2, allArticles) =>
                let feeds3 :=
                  updateFeedFirst
                    (fun fd => { fd with postCount := countArticles store2 rssID })
                    rssID feeds2
                let updatedArticles := filterUpdated allArticles
                ⟨feeds3, store2,
                 ev1 ++ [Effect.articleQuery rssID] ++
                   (articlesToUpsert env.store rssID articles).map
                     (fun p => Effect.articleWrite rssID p.url) ++
                   [Effect.updatePostCount rssID (countArticles store2 rssID)] ++
                   ogEvents updatedArticles ++ streamEvents rssID updatedArticles,
                 none⟩

/-- `rssProcessor(job)`: any error from `handleRSS` is caught and logged; the
worker process never sees it. -/
def rssProcessor (env : JobEnv) : JobOutcome :=
  let out := handleRSS env
  { out with err := none }

/-! Helper lemmas shared by the claim theorems. -/

/-- Looking a feed up after a first-match update: the found document is the
updated one, provided the update does not change the id. -/
theorem findFeed_updateFeedFirst (f : Feed → Feed) (rssID : String)
    (h : ∀ fd, (f fd).id = fd.id) (feeds : List Feed) :
    findFeed (updateFeedFirst f rssID feeds) rssID = (findFeed feeds rssID).map f := by
  induction feeds with
  | nil => rfl
  | cons fd rest ih =>
    by_cases hid : (fd.id == rssID) = true
    · simp [updateFeedFirst, findFeed, hid, List.find?_cons, h fd]
    · simp only [updateFeedFirst, if_neg hid]
      simp only [findFeed, List.find?_cons, hid] at ih ⊢
      exact ih

/-- A first-match update keeps the number of article documents. -/
theorem updateFirstMatch_length (rssID : String) (p : Post) (l : List StoredArticle) :
    (updateFirstMatch rssID p l).length = l.length := by
  induction l with
  | nil => rfl
  | cons d rest ih =>
    by_cases hq : upsertQuery rssID p d = true
    · simp [updateFirstMatch, hq]
    · simp [updateFirstMatch, hq, ih]

/-- Membership in the prefilter output, unfolded. -/
theorem mem_articlesToUpsert (store : ArticleStore) (rssID : String)
    (articles : List Post) (a : Post) :
    a ∈ articlesToUpsert store rssID articles ↔
      a ∈ articles ∧
        a.url ∉ (existingArticlesFor store rssID articles).map StoredArticle.url ∧
        a.contentHash ∉
          (existingArticlesFor store rssID articles).map StoredArticle.contentHash := by
  simp [articlesToUpsert, List.mem_filter, List.elem_iff, and_assoc]

/-- Concatenating the chunks gives back the list (fuelled version). -/
theorem chunksOf100Aux_flatten :
    ∀ (fuel : Nat) (l : List α), l.length ≤ fuel → (chunksOf100Aux fuel l).flatten = l
  | fuel, [], _ => by cases fuel <;> simp [chunksOf100Aux]
  | 0, a :: l, h => by simp at h
  | fuel + 1, a :: l, h => by
      simp only [chunksOf100Aux, List.flatten_cons]
      rw [chunksOf100Aux_flatten fuel ((a :: l).drop 100)
        (by
          simp only [List.length_drop, List.length_cons]
          simp only [List.length_cons] at h
          omega)]
      exact List.take_append_drop 100 (a :: l)

/-- Concatenating the chunks gives back the list. -/
theorem chunksOf100_flatten (l : List α) : (chunksOf100 l).flatten = l :=
  chunksOf100Aux_flatten l.length l le_rfl

/-- Every chunk has at most 100 elements (fuelled version). -/
theorem chunksOf100Aux_le (fuel : Nat) :
    ∀ (l : List α), ∀ ch ∈ chunksOf100Aux fuel l, ch.length ≤ 100 := by
  induction fuel with
  | zero =>
    intro l ch hch
    cases l <;> simp [chunksOf100Aux] at hch
  | succ fuel ih =>
    intro l ch hch
    cases l with
    | nil => simp [chunksOf100Aux] at hch
    | cons a rest =>
      simp only [chunksOf100Aux, List.mem_cons] at hch
      rcases hch with h | h
      · subst h; exact List.length_take_le 100 (a :: rest)
      · exact ih _ ch h

/-- Every chunk has at most 100 elements. -/
theorem chunksOf100_le (l : List α) : ∀ ch ∈ chunksOf100 l, ch.length ≤ 100 :=
  chunksOf100Aux_le l.length l

/-! Claim theorems. -/

/-- C1: In the existence prefilter of `upsertManyArticles`, after querying the
store for articles under the feed whose (url, contentHash) exactly matches some
candidate pair, a candidate is kept for upsert iff its url is not among the
matched articles' urls and its contentHash is not among the matched articles'
contentHashes; a candidate failing either test is excluded. -/
theorem C1_prefilter_keeps_iff (store : ArticleStore) (rssID : String)
    (articles : List Post) (a : Post) :
    a ∈ articlesToUpsert store rssID articles ↔
      a ∈ articles ∧
        a.url ∉ (existingArticlesFor store rssID articles).map StoredArticle.url ∧
        a.contentHash ∉
          (existingArticlesFor store rssID articles).map StoredArticle.contentHash :=
  mem_articlesToUpsert store rssID articles a

/-- Store and candidates for the over-filtering scenario: one stored article,
one exact-duplicate candidate, one candidate with a new url sharing the
duplicate's hash, one candidate with the duplicate's url and a new hash. -/
def c4Store : ArticleStore :=
  ⟨[⟨0, "feed1", "u1", "h1", "t1", "d1", "c1", "cu1", [], [], "2018"⟩], 1⟩

def c4Dup : Post := ⟨"u1", "h1", "t1", "d1", "c1", "cu1", none, none, "2018"⟩

def c4NewUrl : Post := ⟨"u2", "h1", "t2", "d2", "c2", "cu2", none, none, "2018"⟩

def c4NewHash : Post := ⟨"u1", "h2", "t3", "d3", "c3", "cu3", none, none, "2018"⟩

/-- C4: The prefilter can drop genuinely new content: a candidate whose url is
new to the feed but whose contentHash equals that of an exact-duplicate match,
and a candidate with an exact-duplicate match's url but a new contentHash, are
both excluded from upsert although no stored article carries their
(url, contentHash) pair. -/
theorem C4_prefilter_over_filters :
    ((articlesToUpsert c4Store "feed1" [c4Dup, c4NewUrl, c4NewHash]).contains c4NewUrl
        = false)
  ∧ ((articlesToUpsert c4Store "feed1" [c4Dup, c4NewUrl, c4NewHash]).contains c4NewHash
        = false)
  ∧ (c4Store.docs.all (fun d => !(d.url == c4NewUrl.url)) = true)
  ∧ (c4Store.docs.all
      (fun d => !(d.url == c4NewUrl.url && d.contentHash == c4NewUrl.contentHash)) = true)
  ∧ (c4Store.docs.all
      (fun d => !(d.url == c4NewHash.url && d.contentHash == c4NewHash.contentHash)) = true)
    := by decide

/-- C2: For a surviving candidate, the atomic find-or-create-or-update of
`upsertArticle` returns the newly stored article when an insert happened (no
document with this (feedID, url) existed, hence none with a differing field
either), returns null when a differing document existed and was updated (with no
document added), and downstream the null results are filtered out so
updated-but-not-new articles contribute nothing to the enrichment or
announcement lists. -/
theorem C2_upsert_insert_update (store : ArticleStore) (rssID : String) (p : Post) :
    (store.docs.all (fun d => !(d.rss == rssID && d.url == p.url)) = true →
        upsertArticle store rssID p =
          .ok (⟨store.docs ++ [mkInsertedDoc store rssID p], store.nextId + 1⟩,
               some (mkInsertedDoc store rssID p)))
  ∧ (store.docs.any (upsertQuery rssID p) = true →
        ∃ s, upsertArticle store rssID p = .ok (s, none) ∧
          s.docs.length = store.docs.length)
  ∧ (∀ xs ys : List (Option StoredArticle),
        filterUpdated (xs ++ none :: ys) = filterUpdated (xs ++ ys)) := by
  refine ⟨?_, ?_, ?_⟩
  · intro h
    have hall : ∀ d ∈ store.docs, ¬((d.rss == rssID && d.url == p.url) = true) := by
      intro d hd hq
      have h2 := List.all_eq_true.mp h d hd
      rw [hq] at h2
      simp at h2
    have hfind : store.docs.find? (upsertQuery rssID p) = none := by
      refine List.find?_eq_none.mpr ?_
      intro d hd
      intro hq
      exact hall d hd (by
        simp only [upsertQuery, Bool.and_eq_true] at hq
        simp [hq.1.1, hq.1.2])
    have hany : store.docs.any (fun d => d.rss == rssID && d.url == p.url) = false := by
      by_contra hcon
      rw [Bool.not_eq_false, List.any_eq_true] at hcon
      obtain ⟨d, hd, hq⟩ := hcon
      exact hall d hd hq
    simp [upsertArticle, findOneAndUpdateArticle, hfind, hany, applyUpsertOutcome]
  · intro h
    obtain ⟨d, hd, hq⟩ := List.any_eq_true.mp h
    have hsome : (store.docs.find? (upsertQuery rssID p)).isSome :=
      List.find?_isSome.mpr ⟨d, hd, hq⟩
    obtain ⟨d2, hd2⟩ := Option.isSome_iff_exists.mp hsome
    refine ⟨⟨updateFirstMatch rssID p store.docs, store.nextId⟩, ?_,
      updateFirstMatch_length rssID p store.docs⟩
    simp [upsertArticle, findOneAndUpdateArticle, hd2, applyUpsertOutcome]
  · intro xs ys
    simp [filterUpdated]

/-- Store for the C2 update-case witness: a document with the candidate's url but
an older title and hash. -/
def c2Store : ArticleStore :=
  ⟨[⟨0, "f", "u", "hOld", "tOld", "d", "c", "cu", [], [], "pd"⟩], 1⟩

def c2Post : Post := ⟨"u", "hNew", "tNew", "d", "c", "cu", none, none, "pd"⟩

/-- C2 witness: the insert case on an empty store, the update case on a store
holding a differing document, and the null filter, at concrete inputs. -/
theorem C2_upsert_insert_update_witness :
    (upsertArticle ⟨[], 0⟩ "f" c2Post =
        .ok (⟨[] ++ [mkInsertedDoc ⟨[], 0⟩ "f" c2Post], 0 + 1⟩,
             some (mkInsertedDoc ⟨[], 0⟩ "f" c2Post)))
  ∧ (∃ s, upsertArticle c2Store "f" c2Post = .ok (s, none) ∧
        s.docs.length = c2Store.docs.length)
  ∧ filterUpdated ([] ++ none :: []) = filterUpdated ([] ++ []) :=
  ⟨(C2_upsert_insert_update ⟨[], 0⟩ "f" c2Post).1 (by decide),
   (C2_upsert_insert_update c2Store "f" c2Post).2.1 (by decide),
   (C2_upsert_insert_update c2Store "f" c2Post).2.2 [] []⟩

/-- C3: The error handling of `upsertArticle`: a store rejection with the
duplicate-key code yields null with no error propagated (and no store change
from the rejected write), a rejection with any other code is re-raised, and in
the batch runner an error from one upsert aborts the remaining batch. -/
theorem C3_upsert_error_policy (store : ArticleStore) (code : Nat) (p : Post)
    (rest : List Post)
    (f : ArticleStore → Post → Except Nat (ArticleStore × Option StoredArticle))
    (e : Nat)
    (hcode : code ≠ duplicateKeyError)
    (hf : f store p = .error e) :
    applyUpsertOutcome store (.error duplicateKeyError) = .ok (store, none)
  ∧ applyUpsertOutcome store (.error code) = .error code
  ∧ upsertAllWith f store (p :: rest) = .error e := by
  refine ⟨rfl, ?_, ?_⟩
  · simp [applyUpsertOutcome, hcode]
  · simp [upsertAllWith, hf]

def c3Store : ArticleStore := ⟨[], 0⟩

def c3Post : Post := ⟨"u", "h", "t", "d", "c", "cu", none, none, "pd"⟩

/-- C3 witness: the duplicate-key code is swallowed, the concrete code 1 is
re-raised, and a failing upsert aborts a concrete batch. -/
theorem C3_upsert_error_policy_witness :
    applyUpsertOutcome c3Store (.error duplicateKeyError) = .ok (c3Store, none)
  ∧ applyUpsertOutcome c3Store (.error 1) = .error 1
  ∧ upsertAllWith (fun _ _ => .error 1) c3Store [c3Post] = .error 1 :=
  C3_upsert_error_policy c3Store 1 c3Post [] (fun _ _ => .error 1) 1 (by decide) rfl

/-- C6: Submitting a candidate identical in (feedID, url, contentHash) to a
stored article is idempotent: the candidate is dropped by the prefilter in any
batch containing it, a singleton resubmission leaves the store unchanged with no
per-article results, and the empty result list yields no enrichment jobs and no
stream or collections calls. -/
theorem C6_duplicate_idempotent (store : ArticleStore) (rssID : String)
    (post : Post) (batch : List Post) (d : StoredArticle)
    (hd : d ∈ store.docs) (hrss : d.rss = rssID) (hurl : d.url = post.url)
    (hhash : d.contentHash = post.contentHash) (hb : post ∈ batch) :
    post ∉ articlesToUpsert store rssID batch
  ∧ upsertManyArticles store rssID [post] = .ok (store, [])
  ∧ filterUpdated [] = []
  ∧ ogEvents (filterUpdated []) = []
  ∧ streamEvents rssID (filterUpdated []) = [] := by
  have hmem : ∀ b : List Post, post ∈ b →
      post.url ∈ (existingArticlesFor store rssID b).map StoredArticle.url := by
    intro b hpb
    refine List.mem_map.mpr ⟨d, ?_, hurl⟩
    simp only [existingArticlesFor, List.mem_filter]
    refine ⟨hd, ?_⟩
    simp only [Bool.and_eq_true, beq_iff_eq]
    refine ⟨hrss, ?_⟩
    simp only [searchMatches, List.any_eq_true]
    exact ⟨(post.url, post.contentHash),
      List.mem_map.mpr ⟨post, hpb, rfl⟩, by simp [hurl, hhash]⟩
  refine ⟨?_, ?_, rfl, rfl, by simp [streamEvents, filterUpdated]⟩
  · intro hcon
    exact ((mem_articlesToUpsert store rssID batch post).mp hcon).2.1 (hmem batch hb)
  · have hempty : articlesToUpsert store rssID [post] = [] := by
      have hc : (List.map (fun a => a.url)
          (existingArticlesFor store rssID [post])).contains post.url = true :=
        List.elem_iff.mpr (hmem [post] (by simp))
      simp only [articlesToUpsert, List.filter_eq_nil_iff]
      intro a ha
      have ha2 : a = post := by simpa using ha
      subst ha2
      rw [hc]
      simp
    simp [upsertManyArticles, hempty, upsertAllWith]

def c6Doc : StoredArticle := ⟨0, "f", "u", "h", "t", "d", "c", "cu", [], [], "pd"⟩

def c6Store : ArticleStore := ⟨[c6Doc], 1⟩

def c6Post : Post := ⟨"u", "h", "t", "d", "c", "cu", none, none, "pd"⟩

/-- C6 witness: resubmitting an exactly stored article, at concrete inputs. -/
theorem C6_duplicate_idempotent_witness :
    c6Post ∉ articlesToUpsert c6Store "f" [c6Post]
  ∧ upsertManyArticles c6Store "f" [c6Post] = .ok (c6Store, [])
  ∧ filterUpdated [] = []
  ∧ ogEvents (filterUpdated []) = []
  ∧ streamEvents "f" (filterUpdated []) = [] :=
  C6_duplicate_idempotent c6Store "f" c6Post [c6Post] c6Doc (by decide) rfl rfl rfl
    (by decide)

/-- Looking up the feed after `markDone`. -/
theorem findFeed_markDone (now rssID : String) (feeds : List Feed) :
    findFeed (markDone now rssID feeds) rssID =
      (findFeed feeds rssID).map
        (fun fd => { fd with lastScraped := now, isParsing := false }) :=
  findFeed_updateFeedFirst
    (fun fd => { fd with lastScraped := now, isParsing := false }) rssID
    (fun _ => rfl) feeds

/-- Looking up the feed after `resetScrapeFailures`. -/
theorem findFeed_reset (rssID : String) (feeds : List Feed) :
    findFeed (resetScrapeFailures rssID feeds) rssID =
      (findFeed feeds rssID).map (fun fd => { fd with scrapeFailures := 0 }) :=
  findFeed_updateFeedFirst (fun fd => { fd with scrapeFailures := 0 }) rssID
    (fun _ => rfl) feeds

/-- Looking up the feed after `incrScrapeFailures`. -/
theorem findFeed_incr (rssID : String) (feeds : List Feed) :
    findFeed (incrScrapeFailures rssID feeds) rssID =
      (findFeed feeds rssID).map
        (fun fd => { fd with scrapeFailures := fd.scrapeFailures + 1 }) :=
  findFeed_updateFeedFirst
    (fun fd => { fd with scrapeFailures := fd.scrapeFailures + 1 }) rssID
    (fun _ => rfl) feeds

/-- C5: Around the fetch/parse step of `handleRSS`: on success the feed's
consecutive failure counter is reset to 0 whatever its prior value; on failure
the counter is incremented by exactly 1, the error is re-raised so the job
stops, and the Article store is untouched by the job. -/
theorem C5_failure_counter (env : JobEnv) (fd : Feed)
    (hfd : findFeed env.feeds env.rssID = some fd) :
    (env.parseResult = ParseOutcome.failure →
        (handleRSS env).err = some JobError.parseError
      ∧ (handleRSS env).store = env.store
      ∧ (findFeed (handleRSS env).feeds env.rssID).map Feed.scrapeFailures
          = some (fd.scrapeFailures + 1))
  ∧ (∀ c, env.parseResult = ParseOutcome.success c →
      (findFeed (handleRSS env).feeds env.rssID).map Feed.scrapeFailures = some 0) := by
  have hfd1 : findFeed (markDone env.now env.rssID env.feeds) env.rssID
      = some { fd with lastScraped := env.now, isParsing := false } := by
    rw [findFeed_markDone, hfd]; rfl
  constructor
  · intro hp
    refine ⟨?_, ?_, ?_⟩
    · simp [handleRSS, hfd1, hp]
    · simp [handleRSS, hfd1, hp]
    · simp only [handleRSS, hfd1, hp]
      rw [findFeed_incr, hfd1]
      rfl
  · intro c hp
    have base : (findFeed
        (resetScrapeFailures env.rssID (markDone env.now env.rssID env.feeds))
        env.rssID).map Feed.scrapeFailures = some 0 := by
      rw [findFeed_reset, hfd1]; rfl
    simp only [handleRSS, hfd1, hp]
    cases c with
    | none => simpa using base
    | some raw =>
      by_cases hlen : (raw.length == 0) = true
      · simp only [hlen, if_true]
        simpa using base
      · simp only [hlen, Bool.false_eq_true, if_false]
        cases hu : upsertManyArticles env.store env.rssID
            (List.filterMap (normalizeArticle env.normalizeUrl) raw) with
        | error code =>
          simp only [hu]
          simpa using base
        | ok pr =>
          obtain ⟨store2, results⟩ := pr
          simp only [hu]
          rw [show (findFeed
              (updateFeedFirst
                (fun fd => { fd with postCount := countArticles store2 env.rssID })
                env.rssID
                (resetScrapeFailures env.rssID (markDone env.now env.rssID env.feeds)))
              env.rssID) =
            ((findFeed
              (resetScrapeFailures env.rssID (markDone env.now env.rssID env.feeds))
              env.rssID).map
                (fun fd => { fd with postCount := countArticles store2 env.rssID }))
            from findFeed_updateFeedFirst
              (fun fd => { fd with postCount := countArticles store2 env.rssID })
              env.rssID (fun _ => rfl) _]
          rw [findFeed_reset, hfd1]
          rfl

def c5Feed : Feed := ⟨"f", "old", true, 3, 5⟩

def c5EnvFail : JobEnv :=
  ⟨"f", "http://x", "now", [c5Feed], ⟨[], 0⟩, ParseOutcome.failure, fun s => some s⟩

def c5EnvOk : JobEnv :=
  ⟨"f", "http://x", "now", [c5Feed], ⟨[], 0⟩, ParseOutcome.success none, fun s => some s⟩

/-- C5 witness: a failing parse on a feed with 3 prior failures, and a
successful parse on the same feed, at concrete inputs. -/
theorem C5_failure_counter_witness :
    ((handleRSS c5EnvFail).err = some JobError.parseError
   ∧ (handleRSS c5EnvFail).store = c5EnvFail.store
   ∧ (findFeed (handleRSS c5EnvFail).feeds c5EnvFail.rssID).map Feed.scrapeFailures
       = some (c5Feed.scrapeFailures + 1))
  ∧ (findFeed (handleRSS c5EnvOk).feeds c5EnvOk.rssID).map Feed.scrapeFailures
      = some 0 :=
  ⟨(C5_failure_counter c5EnvFail c5Feed (by decide)).1 rfl,
   (C5_failure_counter c5EnvOk c5Feed (by decide)).2 none rfl⟩

def c7Feed : Feed := ⟨"f", "old", true, 0, 7⟩

def c7Doc : StoredArticle := ⟨0, "f", "u", "h", "t", "d", "c", "cu", [], [], "pd"⟩

/-- A run whose fetch succeeds but yields zero articles, on a feed whose stored
`postCount` (7) disagrees with the store's actual count (1). -/
def c7Env : JobEnv :=
  ⟨"f", "http://x", "now", [c7Feed], ⟨[c7Doc], 1⟩, ParseOutcome.success (some []),
   fun s => some s⟩

/-- C7 counterexample: on a zero-article run the feed's `postCount` is neither
recomputed nor written back — it stays 7 while the store holds 1 article for the
feed, and no post-count update effect is emitted. -/
theorem C7_counterexample :
    ((handleRSS c7Env).feeds.map Feed.postCount = [7])
  ∧ (countArticles (handleRSS c7Env).store "f" = 1)
  ∧ ((handleRSS c7Env).events.all
      (fun e => match e with
        | Effect.updatePostCount _ _ => false
        | _ => true) = true) := by decide

/-- C7 (amended): The feed's `postCount` is recomputed and written back only on
runs that reach the upsert phase (fetch succeeded with a non-empty article
list), where it is set to the store's article count for the feed after the
upserts; failed-fetch runs and zero-article runs leave it unchanged. -/
theorem C7_amended_postcount (env : JobEnv) (fd : Feed)
    (hfd : findFeed env.feeds env.rssID = some fd) :
    (env.parseResult = ParseOutcome.failure →
        (findFeed (handleRSS env).feeds env.rssID).map Feed.postCount
          = some fd.postCount)
  ∧ (env.parseResult = ParseOutcome.success (some []) →
        (findFeed (handleRSS env).feeds env.rssID).map Feed.postCount
          = some fd.postCount)
  ∧ (∀ raw store2 results, env.parseResult = ParseOutcome.success (some raw) →
        raw ≠ [] →
        upsertManyArticles env.store env.rssID
            (List.filterMap (normalizeArticle env.normalizeUrl) raw)
          = .ok (store2, results) →
        (findFeed (handleRSS env).feeds env.rssID).map Feed.postCount
          = some (countArticles store2 env.rssID)) := by
  have hfd1 : findFeed (markDone env.now env.rssID env.feeds) env.rssID
      = some { fd with lastScraped := env.now, isParsing := false } := by
    rw [findFeed_markDone, hfd]; rfl
  refine ⟨?_, ?_, ?_⟩
  · intro hp
    simp only [handleRSS, hfd1, hp]
    rw [findFeed_incr, hfd1]
    rfl
  · intro hp
    simp only [handleRSS, hfd1, hp, List.length_nil, beq_self_eq_true,
      eq_self_iff_true, if_true]
    rw [findFeed_reset, hfd1]
    rfl
  · intro raw store2 results hp hraw hok
    have hlen : (raw.length == 0) = false := by
      cases raw with
      | nil => exact absurd rfl hraw
      | cons a l => rfl
    simp only [handleRSS, hfd1, hp, hlen, Bool.false_eq_true, if_false, hok]
    rw [show (findFeed
        (updateFeedFirst
          (fun fd => { fd with postCount := countArticles store2 env.rssID })
          env.rssID
          (resetScrapeFailures env.rssID (markDone env.now env.rssID env.feeds)))
        env.rssID) =
      ((findFeed
        (resetScrapeFailures env.rssID (markDone env.now env.rssID env.feeds))
        env.rssID).map
          (fun fd => { fd with postCount := countArticles store2 env.rssID }))
      from findFeed_updateFeedFirst
        (fun fd => { fd with postCount := countArticles store2 env.rssID })
        env.rssID (fun _ => rfl) _]
    rw [findFeed_reset, hfd1]
    rfl

def c7RawPost : RawPost := ⟨"u", "t", "d", "c", "cu", none, none, "pd"⟩

/-- A run with one brand-new article on an empty store. -/
def c7EnvUpsert : JobEnv :=
  ⟨"f", "http://x", "now", [c7Feed], ⟨[], 0⟩,
   ParseOutcome.success (some [c7RawPost]), fun s => some s⟩

def c7EnvFail : JobEnv :=
  ⟨"f", "http://x", "now", [c7Feed], ⟨[c7Doc], 1⟩, ParseOutcome.failure,
   fun s => some s⟩

/-- C7 (amended) witness: a failed run, a zero-article run, and a one-article
run on an empty store, at concrete inputs. -/
theorem C7_amended_postcount_witness :
    ((findFeed (handleRSS c7EnvFail).feeds c7EnvFail.rssID).map Feed.postCount
        = some c7Feed.postCount)
  ∧ ((findFeed (handleRSS c7Env).feeds c7Env.rssID).map Feed.postCount
        = some c7Feed.postCount)
  ∧ ((findFeed (handleRSS c7EnvUpsert).feeds c7EnvUpsert.rssID).map Feed.postCount
        = some (countArticles
            ⟨[mkInsertedDoc ⟨[], 0⟩ "f" ⟨"u", computeContentHash c7RawPost, "t", "d",
              "c", "cu", none, none, "pd"⟩], 1⟩ c7EnvUpsert.rssID)) :=
  ⟨(C7_amended_postcount c7EnvFail c7Feed (by decide)).1 rfl,
   (C7_amended_postcount c7Env c7Feed (by decide)).2.1 rfl,
   (C7_amended_postcount c7EnvUpsert c7Feed (by decide)).2.2 [c7RawPost]
     ⟨[mkInsertedDoc ⟨[], 0⟩ "f" ⟨"u", computeContentHash c7RawPost, "t", "d",
        "c", "cu", none, none, "pd"⟩], 1⟩
     [some (mkInsertedDoc ⟨[], 0⟩ "f" ⟨"u", computeContentHash c7RawPost, "t", "d",
        "c", "cu", none, none, "pd"⟩)]
     rfl (by decide) rfl⟩

/-- C9: The first store effect of every `handleRSS` run — before the
feed-existence check, the parse call and every Article read or write in the
trace — is the `markDone` ack write, attempted even when the feed no longer
exists; and that write sets `isParsing` to false and `lastScraped` to the
current time on the feed it finds. -/
theorem C9_markdone_first (env : JobEnv) :
    ((handleRSS env).events.head? = some (Effect.markDone env.rssID))
  ∧ (findFeed (markDone env.now env.rssID env.feeds) env.rssID =
      (findFeed env.feeds env.rssID).map
        (fun fd => { fd with lastScraped := env.now, isParsing := false })) := by
  refine ⟨?_, findFeed_markDone env.now env.rssID env.feeds⟩
  simp only [handleRSS]
  cases findFeed (markDone env.now env.rssID env.feeds) env.rssID with
  | none => rfl
  | some fd =>
    cases env.parseResult with
    | failure => rfl
    | success c =>
      cases c with
      | none => rfl
      | some raw =>
        by_cases hlen : (raw.length == 0) = true
        · simp [hlen]
        · simp only [hlen, Bool.false_eq_true, if_false]
          cases upsertManyArticles env.store env.rssID
              (List.filterMap (normalizeArticle env.normalizeUrl) raw) with
          | error code => rfl
          | ok pr =>
            obtain ⟨s2, rs⟩ := pr
            rfl

/-- C8: On a run that reaches the fan-out with newly inserted articles, the
trace ends with the stream publication — the new articles' activities in list
order, split into consecutive chunks of at most 100 whose concatenation is the
full activity list, published before the collections notification which closes
the trace — and each activity carries actor = the article's feed id,
foreign_id = "articles:" + id, object = id, time = publicationDate and
verb = "rss_article". -/
theorem C8_fanout_chunks (env : JobEnv) (fd : Feed) (raw : List RawPost)
    (store2 : ArticleStore) (results : List (Option StoredArticle))
    (hfd : findFeed env.feeds env.rssID = some fd)
    (hp : env.parseResult = ParseOutcome.success (some raw))
    (hraw : raw ≠ [])
    (hok : upsertManyArticles env.store env.rssID
        (List.filterMap (normalizeArticle env.normalizeUrl) raw)
      = .ok (store2, results))
    (hnew : filterUpdated results ≠ []) :
    (∃ pre, (handleRSS env).events =
        pre ++ ((chunksOf100 ((filterUpdated results).map mkActivity)).map
            Effect.addActivities ++ [Effect.notifyCollections env.rssID]))
  ∧ ((chunksOf100 ((filterUpdated results).map mkActivity)).flatten
        = (filterUpdated results).map mkActivity)
  ∧ (∀ ch ∈ chunksOf100 ((filterUpdated results).map mkActivity), ch.length ≤ 100)
  ∧ (∀ a : StoredArticle, mkActivity a =
      { actor := a.rss, foreign_id := "articles:" ++ toString a.id, object := a.id,
        time := a.publicationDate, verb := "rss_article" }) := by
  refine ⟨?_, chunksOf100_flatten _, chunksOf100_le _, fun a => rfl⟩
  have hfd1 : findFeed (markDone env.now env.rssID env.feeds) env.rssID
      = some { fd with lastScraped := env.now, isParsing := false } := by
    rw [findFeed_markDone, hfd]; rfl
  have hlen : (raw.length == 0) = false := by
    cases raw with
    | nil => exact absurd rfl hraw
    | cons a l => rfl
  have hne2 : (filterUpdated results).isEmpty = false := by
    rw [List.isEmpty_eq_false]; exact hnew
  refine ⟨[Effect.markDone env.rssID, Effect.findFeed env.rssID,
      Effect.parseFeed env.url, Effect.resetFailures env.rssID,
      Effect.articleQuery env.rssID] ++
    (articlesToUpsert env.store env.rssID
        (List.filterMap (normalizeArticle env.normalizeUrl) raw)).map
      (fun p => Effect.articleWrite env.rssID p.url) ++
    [Effect.updatePostCount env.rssID (countArticles store2 env.rssID)] ++
    ogEvents (filterUpdated results), ?_⟩
  simp only [handleRSS, hfd1, hp, hlen, Bool.false_eq_true, if_false, hok,
    streamEvents, hne2]
  simp [List.append_assoc]

def w8Raw : RawPost := ⟨"u", "t", "d", "c", "cu", none, none, "pd"⟩

def w8Post : Post :=
  ⟨"u", computeContentHash w8Raw, "t", "d", "c", "cu", none, none, "pd"⟩

def w8Doc : StoredArticle := mkInsertedDoc ⟨[], 0⟩ "f" w8Post

def w8Feed : Feed := ⟨"f", "old", true, 0, 0⟩

/-- A run inserting one brand-new article into an empty store. -/
def w8Env : JobEnv :=
  ⟨"f", "http://x", "now", [w8Feed], ⟨[], 0⟩,
   ParseOutcome.success (some [w8Raw]), fun s => some s⟩

/-- C8 witness: the fan-out of a run that inserted one new article, at concrete
inputs. -/
theorem C8_fanout_chunks_witness :
    (∃ pre, (handleRSS w8Env).events =
        pre ++ ((chunksOf100 ((filterUpdated [some w8Doc]).map mkActivity)).map
            Effect.addActivities ++ [Effect.notifyCollections w8Env.rssID]))
  ∧ ((chunksOf100 ((filterUpdated [some w8Doc]).map mkActivity)).flatten
        = (filterUpdated [some w8Doc]).map mkActivity)
  ∧ (∀ ch ∈ chunksOf100 ((filterUpdated [some w8Doc]).map mkActivity),
        ch.length ≤ 100)
  ∧ (∀ a : StoredArticle, mkActivity a =
      { actor := a.rss, foreign_id := "articles:" ++ toString a.id, object := a.id,
        time := a.publicationDate, verb := "rss_article" }) :=
  C8_fanout_chunks w8Env w8Feed [w8Raw] ⟨[w8Doc], 1⟩ [some w8Doc]
    (by decide) rfl (by decide) rfl (by decide)

/-- C10: A run whose upsert phase yields no newly inserted article (all results
null, or no survivor at all) makes no stream publication and no collections
notification: the trace contains no addActivities and no notifyCollections
effect. -/
theorem C10_no_fanout_without_new (env : JobEnv) (fd : Feed) (raw : List RawPost)
    (store2 : ArticleStore) (results : List (Option StoredArticle))
    (hfd : findFeed env.feeds env.rssID = some fd)
    (hp : env.parseResult = ParseOutcome.success (some raw))
    (hraw : raw ≠ [])
    (hok : upsertManyArticles env.store env.rssID
        (List.filterMap (normalizeArticle env.normalizeUrl) raw)
      = .ok (store2, results))
    (hz : filterUpdated results = []) :
    (handleRSS env).events.all
      (fun e => match e with
        | Effect.addActivities _ => false
        | Effect.notifyCollections _ => false
        | _ => true) = true := by
  have hfd1 : findFeed (markDone env.now env.rssID env.feeds) env.rssID
      = some { fd with lastScraped := env.now, isParsing := false } := by
    rw [findFeed_markDone, hfd]; rfl
  have hlen : (raw.length == 0) = false := by
    cases raw with
    | nil => exact absurd rfl hraw
    | cons a l => rfl
  simp only [handleRSS, hfd1, hp, hlen, Bool.false_eq_true, if_false, hok, hz]
  simp [streamEvents, ogEvents, List.all_append, List.all_map, Function.comp]

def w10Raw : RawPost := ⟨"u", "t", "d", "c", "cu", none, none, "pd"⟩

/-- A stored article exactly matching the sole candidate's (url, contentHash). -/
def w10Doc : StoredArticle :=
  ⟨0, "f", "u", computeContentHash w10Raw, "t", "d", "c", "cu", [], [], "pd"⟩

def w10Feed : Feed := ⟨"f", "old", true, 0, 1⟩

/-- A run whose sole candidate is dropped by the prefilter as an exact
duplicate. -/
def w10Env : JobEnv :=
  ⟨"f", "http://x", "now", [w10Feed], ⟨[w10Doc], 1⟩,
   ParseOutcome.success (some [w10Raw]), fun s => some s⟩

/-- C10 witness: a run whose only candidate is an exact duplicate, at concrete
inputs. -/
theorem C10_no_fanout_without_new_witness :
    (handleRSS w10Env).events.all
      (fun e => match e with
        | Effect.addActivities _ => false
        | Effect.notifyCollections _ => false
        | _ => true) = true :=
  C10_no_fanout_without_new w10Env w10Feed [w10Raw] ⟨[w10Doc], 1⟩ []
    (by decide) rfl (by decide) rfl rfl

end Winds
